import Mathlib

/-!
Shallow embedding of the p-bot poker core: the hand evaluator
(`src/src/utils/handEvaluator.ts`), the raise handler of
`src/src/components/ActionButtons.tsx`, and a betting-engine model for the
chip-conservation invariant.  JavaScript numbers are embedded as `Nat`/`Int`
(all arithmetic here is small-integer exact), strengths as `ℚ`.
-/

namespace PBot

/-- The `Rank` enum of `types/poker` (referenced by the evaluator). -/
inductive Rank
  | two | three | four | five | six | seven | eight | nine | ten
  | jack | queen | king | ace
deriving DecidableEq

/-- The `Suit` enum of `types/poker`. -/
inductive Suit
  | clubs | diamonds | hearts | spades
deriving DecidableEq

/-- A playing card: rank plus suit. -/
structure Card where
  rank : Rank
  suit : Suit
deriving DecidableEq

/-- `getRankValue` from handEvaluator.ts: numeric rank value, Ace high. -/
def getRankValue : Rank → Nat
  | .two => 2
  | .three => 3
  | .four => 4
  | .five => 5
  | .six => 6
  | .seven => 7
  | .eight => 8
  | .nine => 9
  | .ten => 10
  | .jack => 11
  | .queen => 12
  | .king => 13
  | .ace => 14

/-- `Object.values(Rank)` – the ranks in enum declaration order. -/
def allRanks : List Rank :=
  [.two, .three, .four, .five, .six, .seven, .eight, .nine, .ten,
   .jack, .queen, .king, .ace]

/-- Display text of a rank (the enum's string value). -/
def rankStr : Rank → String
  | .two => "2"
  | .three => "3"
  | .four => "4"
  | .five => "5"
  | .six => "6"
  | .seven => "7"
  | .eight => "8"
  | .nine => "9"
  | .ten => "10"
  | .jack => "J"
  | .queen => "Q"
  | .king => "K"
  | .ace => "A"

/-- The `HandEvaluation` record returned by the evaluator. -/
structure HandEvaluation where
  handType : String
  handRank : Nat
  kickers : List Rank
  description : String
  strength : ℚ
deriving DecidableEq

/-- Descending comparison on cards by rank value: the comparator
`(a, b) => getRankValue(b.rank) - getRankValue(a.rank)` used to sort. -/
def cardGe (a b : Card) : Prop := getRankValue b.rank ≤ getRankValue a.rank

instance : DecidableRel cardGe := fun a b =>
  inferInstanceAs (Decidable (getRankValue b.rank ≤ getRankValue a.rank))

instance : IsTotal Card cardGe :=
  ⟨fun a b => (Nat.le_total (getRankValue b.rank) (getRankValue a.rank)).imp id id⟩

instance : IsTrans Card cardGe :=
  ⟨fun _ _ _ h1 h2 => Nat.le_trans h2 h1⟩

/-- Descending comparison on ranks by rank value (kicker sorting). -/
def rankGe (a b : Rank) : Prop := getRankValue b ≤ getRankValue a

instance : DecidableRel rankGe := fun a b =>
  inferInstanceAs (Decidable (getRankValue b ≤ getRankValue a))

instance : IsTotal Rank rankGe :=
  ⟨fun a b => (Nat.le_total (getRankValue b) (getRankValue a)).imp id id⟩

instance : IsTrans Rank rankGe :=
  ⟨fun _ _ _ h1 h2 => Nat.le_trans h2 h1⟩

/-- Descending comparison on naturals (`uniqueRanks.sort((a,b) => b - a)`). -/
def natGe (a b : Nat) : Prop := b ≤ a

instance : DecidableRel natGe := fun a b => inferInstanceAs (Decidable (b ≤ a))

instance : IsTotal Nat natGe := ⟨fun a b => (Nat.le_total b a).imp id id⟩

instance : IsTrans Nat natGe := ⟨fun _ _ _ h1 h2 => Nat.le_trans h2 h1⟩

/-- `[...cards].sort((a, b) => getRankValue(b.rank) - getRankValue(a.rank))`:
the hand sorted by rank value, high to low. -/
def sortCards (cs : List Card) : List Card := List.insertionSort cardGe cs

/-- First-occurrence deduplication, as produced by iterating JS object keys
in insertion order (and by `new Set(...)`). -/
def dedupFirst {α : Type} [DecidableEq α] : List α → List α
  | [] => []
  | a :: as => a :: (dedupFirst as).filter (fun x => x ≠ a)

/-- Number of cards of a given rank (`rankCounts[rank]`). -/
def countRank (cs : List Card) (r : Rank) : Nat := (cs.map (·.rank)).count r

/-- Number of cards of a given suit (`suitCounts[suit]`). -/
def countSuit (cs : List Card) (s : Suit) : Nat := (cs.map (·.suit)).count s

/-- `getRankCounts`: the rank-count table as an association list whose keys
appear in first-occurrence order, matching JS object key enumeration. -/
def getRankCounts (cs : List Card) : List (Rank × Nat) :=
  (dedupFirst (cs.map (·.rank))).map (fun r => (r, countRank cs r))

/-- `getSuitCounts`: the suit-count table, keys in first-occurrence order. -/
def getSuitCounts (cs : List Card) : List (Suit × Nat) :=
  (dedupFirst (cs.map (·.suit))).map (fun s => (s, countSuit cs s))

/-- `Object.keys(rankCounts).find(rank => rankCounts[rank] === n)`. -/
def findRankWithCount (cs : List Card) (n : Nat) : Option Rank :=
  ((getRankCounts cs).find? (fun p => p.2 == n)).map (·.1)

/-- `Object.values(Rank).find(rank => getRankValue(rank) === v)`. -/
def rankOfValue (v : Nat) : Option Rank :=
  allRanks.find? (fun r => getRankValue r == v)

/-- `uniqueRanks`: distinct rank values of the hand, sorted high to low
(`[...new Set(cards.map(getRankValue))].sort((a,b) => b - a)`). -/
def uniqueRankValues (cs : List Card) : List Nat :=
  List.insertionSort natGe (dedupFirst (cs.map (fun c => getRankValue c.rank)))

/-- The straight scan loop of `checkStraight`: slide a 5-wide window over the
descending distinct values, return the first window head whose four
successors each drop by exactly one. -/
def straightScan : List Nat → Option Nat
  | v0 :: v1 :: v2 :: v3 :: v4 :: rest =>
    if v1 = v0 - 1 ∧ v2 = v0 - 2 ∧ v3 = v0 - 3 ∧ v4 = v0 - 4 then some v0
    else straightScan (v1 :: v2 :: v3 :: v4 :: rest)
  | _ => none

/-- `checkFlush`: first suit with at least 5 cards; the flush's high card is
the first card of that suit in the descending-sorted hand. -/
def checkFlush (cards : List Card) : Option HandEvaluation :=
  match ((getSuitCounts cards).find? (fun p => 5 ≤ p.2)).map (·.1) with
  | some flushSuit =>
    match cards.filter (fun c => c.suit = flushSuit) with
    | c :: _ =>
      some { handType := "Flush", handRank := 6, kickers := [c.rank],
             description := "Flush, " ++ rankStr c.rank ++ " high",
             strength := 3/4 }
    | [] => none
  | none => none

/-- `checkStraight`: scan descending distinct values for 5 consecutive ones;
failing that, recognize the wheel A-2-3-4-5 as a five-high straight. -/
def checkStraight (cards : List Card) : Option HandEvaluation :=
  let uniq := uniqueRankValues cards
  match straightScan uniq with
  | some v =>
    match rankOfValue v with
    | some hc =>
      some { handType := "Straight", handRank := 5, kickers := [hc],
             description := "Straight, " ++ rankStr hc ++ " high",
             strength := 13/20 }
    | none =>
      some { handType := "Straight", handRank := 5, kickers := [],
             description := "Straight, Unknown high", strength := 13/20 }
  | none =>
    if 14 ∈ uniq ∧ 2 ∈ uniq ∧ 3 ∈ uniq ∧ 4 ∈ uniq ∧ 5 ∈ uniq then
      some { handType := "Straight", handRank := 5, kickers := [Rank.five],
             description := "Straight, Five high (Wheel)", strength := 3/5 }
    else none

/-- `checkStraightFlush`: fires when the whole hand has BOTH a flush and a
straight (not necessarily in the same suit); royal when the hand's highest
card — `cards[0]` of the sorted hand — is an Ace. -/
def checkStraightFlush (cards : List Card) : Option HandEvaluation :=
  match checkFlush cards, checkStraight cards with
  | some _, some _ =>
    match cards with
    | c :: _ =>
      let isRoyal := getRankValue c.rank = 14
      some { handType := if isRoyal then "Royal Flush" else "Straight Flush",
             handRank := if isRoyal then 10 else 9,
             kickers := [c.rank],
             description :=
               if isRoyal then "Royal Flush"
               else "Straight Flush, " ++ rankStr c.rank ++ " high",
             strength := if isRoyal then 1 else 19/20 }
    | [] => none
  | _, _ => none

/-- `checkFourOfAKind`: a rank counted exactly 4 times, plus the first
singleton rank as kicker when one exists. -/
def checkFourOfAKind (cards : List Card) : Option HandEvaluation :=
  match findRankWithCount cards 4 with
  | some fourRank =>
    let kicker :=
      (((getRankCounts cards).find?
          (fun p => decide (p.1 ≠ fourRank) && p.2 == 1)).map (·.1))
    some { handType := "Four of a Kind", handRank := 8,
           kickers := match kicker with | some k => [k] | none => [],
           description := "Four " ++ rankStr fourRank ++ "s",
           strength := 9/10 }
  | none => none

/-- `checkFullHouse`: a rank counted exactly 3 times and a rank counted
exactly 2 times. -/
def checkFullHouse (cards : List Card) : Option HandEvaluation :=
  match findRankWithCount cards 3, findRankWithCount cards 2 with
  | some threeRank, some pairRank =>
    some { handType := "Full House", handRank := 7,
           kickers := [threeRank, pairRank],
           description :=
             "Full House, " ++ rankStr threeRank ++ "s over " ++ rankStr pairRank ++ "s",
           strength := 17/20 }
  | _, _ => none

/-- `checkThreeOfAKind`: a rank counted exactly 3 times; kickers are the
singleton ranks, sorted high to low, at most 2 kept. -/
def checkThreeOfAKind (cards : List Card) : Option HandEvaluation :=
  match findRankWithCount cards 3 with
  | some threeRank =>
    let kickers :=
      (List.insertionSort rankGe
        (((getRankCounts cards).filter
            (fun p => decide (p.1 ≠ threeRank) && p.2 == 1)).map (·.1))).take 2
    some { handType := "Three of a Kind", handRank := 4,
           kickers := kickers,
           description := "Three " ++ rankStr threeRank ++ "s",
           strength := 11/20 }
  | none => none

/-- `checkTwoPair`: at least two ranks counted exactly 2 times; kickers hold
only the first singleton rank (or nothing). -/
def checkTwoPair (cards : List Card) : Option HandEvaluation :=
  let pairs := ((getRankCounts cards).filter (fun p => p.2 == 2)).map (·.1)
  if 2 ≤ pairs.length then
    let sortedPairs := List.insertionSort rankGe pairs
    let kicker := findRankWithCount cards 1
    some { handType := "Two Pair", handRank := 3,
           kickers := match kicker with | some k => [k] | none => [],
           description :=
             match sortedPairs with
             | a :: b :: _ =>
               "Two Pair, " ++ rankStr a ++ "s and " ++ rankStr b ++ "s"
             | _ => "Two Pair",
           strength := 9/20 }
  else none

/-- `checkPair`: one rank counted exactly 2 times; kickers are the singleton
ranks sorted high to low, at most 3 kept; strength scales with pair rank. -/
def checkPair (cards : List Card) : Option HandEvaluation :=
  match findRankWithCount cards 2 with
  | some pr =>
    let kickers :=
      (List.insertionSort rankGe
        (((getRankCounts cards).filter
            (fun p => decide (p.1 ≠ pr) && p.2 == 1)).map (·.1))).take 3
    some { handType := "Pair", handRank := 2,
           kickers := kickers,
           description := "Pair of " ++ rankStr pr ++ "s",
           strength := 3/10 + (getRankValue pr : ℚ)/100 }
  | none => none

/-- `checkHighCard`: terminal fallback; top 5 ranks as kickers, strength
scales with the top rank. -/
def checkHighCard (cards : List Card) : HandEvaluation :=
  let sortedRanks := (List.insertionSort rankGe (cards.map (·.rank))).take 5
  match sortedRanks with
  | r :: _ =>
    { handType := "High Card", handRank := 1, kickers := sortedRanks,
      description := "High Card, " ++ rankStr r,
      strength := 1/10 + (getRankValue r : ℚ)/200 }
  | [] =>
    { handType := "High Card", handRank := 1, kickers := [],
      description := "High Card", strength := 1/10 }

/-- The `||` cascade of `evaluateHand` on the sorted hand: first matching
checker wins, high card as fallback. -/
def evaluateSorted (s : List Card) : HandEvaluation :=
  match checkStraightFlush s with
  | some e => e
  | none =>
  match checkFourOfAKind s with
  | some e => e
  | none =>
  match checkFullHouse s with
  | some e => e
  | none =>
  match checkFlush s with
  | some e => e
  | none =>
  match checkStraight s with
  | some e => e
  | none =>
  match checkThreeOfAKind s with
  | some e => e
  | none =>
  match checkTwoPair s with
  | some e => e
  | none =>
  match checkPair s with
  | some e => e
  | none => checkHighCard s

/-- `evaluateHand`: with fewer than 5 cards, return the fabricated
"Incomplete hand" placeholder; otherwise sort descending and run the
checker cascade. -/
def evaluateHand (cards : List Card) : HandEvaluation :=
  if cards.length < 5 then
    { handType := "High Card", handRank := 1, kickers := [],
      description := "Incomplete hand", strength := 1/10 }
  else
    evaluateSorted (sortCards cards)

/-! ### Concrete hands used by the claims -/

/-- `{Ac,2c,3c,4c,5c}` — the suited wheel. -/
def wheelClubs : List Card :=
  [⟨.ace, .clubs⟩, ⟨.two, .clubs⟩, ⟨.three, .clubs⟩, ⟨.four, .clubs⟩,
   ⟨.five, .clubs⟩]

/-- A hand with a club flush (3c 4c 5c 6c Kc) and a mixed-suit straight
(2h 3c 4c 5c 6c) but no straight flush in any single suit. -/
def mixedFlushStraightHand : List Card :=
  [⟨.two, .hearts⟩, ⟨.three, .clubs⟩, ⟨.four, .clubs⟩, ⟨.five, .clubs⟩,
   ⟨.six, .clubs⟩, ⟨.queen, .diamonds⟩, ⟨.king, .clubs⟩]

/-- `{2c,2d,2h,5s,5c,9h,Kd}` — the spec's full-house example. -/
def fullHouseHand : List Card :=
  [⟨.two, .clubs⟩, ⟨.two, .diamonds⟩, ⟨.two, .hearts⟩, ⟨.five, .spades⟩,
   ⟨.five, .clubs⟩, ⟨.nine, .hearts⟩, ⟨.king, .diamonds⟩]

/-- `{2c,2d,2h,5s,5c,5d,Kd}` — two three-of-a-kinds, no rank counted
exactly twice. -/
def twoTripsHand : List Card :=
  [⟨.two, .clubs⟩, ⟨.two, .diamonds⟩, ⟨.two, .hearts⟩, ⟨.five, .spades⟩,
   ⟨.five, .clubs⟩, ⟨.five, .diamonds⟩, ⟨.king, .diamonds⟩]

/-- `{Kc,Kd,5h,5s,9c}` — a plain two-pair hand. -/
def twoPairHand : List Card :=
  [⟨.king, .clubs⟩, ⟨.king, .diamonds⟩, ⟨.five, .hearts⟩, ⟨.five, .spades⟩,
   ⟨.nine, .clubs⟩]

/-- `{Ah,Kh,Qh,Jh,Th}` — a true royal flush, used as witness input. -/
def royalHearts : List Card :=
  [⟨.ace, .hearts⟩, ⟨.king, .hearts⟩, ⟨.queen, .hearts⟩, ⟨.jack, .hearts⟩,
   ⟨.ten, .hearts⟩]

/-! ### Spec-side predicate for claim C2 -/

/-- All four suits. -/
def allSuits : List Suit := [.clubs, .diamonds, .hearts, .spades]

/-- The suit holds the five consecutive rank values `low .. low+4`. -/
def suitRunAt (cs : List Card) (s : Suit) (low : Nat) : Bool :=
  (List.range 5).all
    (fun j => cs.any (fun c => c.suit == s && getRankValue c.rank == low + j))

/-- The suit holds the wheel A-2-3-4-5. -/
def suitWheel (cs : List Card) (s : Suit) : Bool :=
  [14, 2, 3, 4, 5].all
    (fun v => cs.any (fun c => c.suit == s && getRankValue c.rank == v))

/-- Written from the spec sentence for C2: some single suit contains at
least 5 cards forming 5 consecutive ranks within that suit (the wheel
counted as a low run).  This is the comparison predicate for the claim,
NOT the code's check. -/
def specStraightFlush (cs : List Card) : Bool :=
  allSuits.any
    (fun s => ((List.range 9).any (fun k => suitRunAt cs s (2 + k))) ||
      suitWheel cs s)

/-! ### Statement predicate for claim C6 -/

/-- The per-category strength table the spec prescribes, read off the
evaluation of a hand: each category's fixed constant, the two straight
constants, and the rank-scaled pair/high-card formulas. -/
def StrengthMatchesCategory (cs : List Card) : Prop :=
  ((evaluateHand cs).handRank = 10 → (evaluateHand cs).strength = 1) ∧
  ((evaluateHand cs).handRank = 9 → (evaluateHand cs).strength = 19/20) ∧
  ((evaluateHand cs).handRank = 8 → (evaluateHand cs).strength = 9/10) ∧
  ((evaluateHand cs).handRank = 7 → (evaluateHand cs).strength = 17/20) ∧
  ((evaluateHand cs).handRank = 6 → (evaluateHand cs).strength = 3/4) ∧
  ((evaluateHand cs).handRank = 5 →
    (evaluateHand cs).strength = 13/20 ∨
      ((evaluateHand cs).strength = 3/5 ∧
        (evaluateHand cs).kickers = [Rank.five])) ∧
  ((evaluateHand cs).handRank = 4 → (evaluateHand cs).strength = 11/20) ∧
  ((evaluateHand cs).handRank = 2 →
    ∃ r, countRank cs r = 2 ∧
      (evaluateHand cs).strength = 3/10 + (getRankValue r : ℚ)/100) ∧
  ((evaluateHand cs).handRank = 1 →
    ∃ r, r ∈ cs.map (·.rank) ∧
      (∀ r' ∈ cs.map (·.rank), getRankValue r' ≤ getRankValue r) ∧
      (evaluateHand cs).strength = 1/10 + (getRankValue r : ℚ)/200)

/-! ### The raise handler of ActionButtons.tsx -/

/-- `minRaise = Math.max(currentBet * 2, currentBet + 50)`. -/
def minRaise (currentBet : ℤ) : ℤ := max (currentBet * 2) (currentBet + 50)

/-- `handleRaise` submits
`Math.min(Math.max(raiseAmount, minRaise), maxRaise)` where
`maxRaise = playerChips`. -/
def handleRaiseAmount (raiseAmount currentBet playerChips : ℤ) : ℤ :=
  min (max raiseAmount (minRaise currentBet)) playerChips

/-! ### Betting-engine model for chip conservation (claim C8) -/

/-- A player as the betting engine sees one: chip stack, chips committed in
the current round, folded flag. -/
structure EPlayer where
  chips : ℤ
  currentBet : ℤ
  isActive : Bool
deriving DecidableEq

/-- The betting-engine state: players, pot, outstanding table bet, turn
pointer. -/
structure EGameState where
  players : List EPlayer
  pot : ℤ
  currentBet : ℤ
  activePlayerIndex : Nat
deriving DecidableEq

/-- The four player actions. -/
inductive EAction
  | fold | check | call | raise
deriving DecidableEq

/-- Total chips in play: every stack plus the pot. -/
def chipSum (st : EGameState) : ℤ := (st.players.map (·.chips)).sum + st.pot

/-- Turn pointer advance, wrapping around the table. -/
def nextIndex (st : EGameState) : Nat :=
  (st.activePlayerIndex + 1) % st.players.length

/-- Modelled from the spec: `processPlayerAction` of the GameEngine
(`src/utils/gameEngine.ts`, imported by App.tsx but absent from the
sources).  Per spec section 4.2: FOLD deactivates the player and moves no
chips; CHECK is legal only when the player's bet matches the table bet and
moves no chips; CALL moves `table.currentBet - player.currentBet` chips
from player to pot, capped at the player's remaining chips; RAISE requires
`minRaise ≤ amount ≤ player.chips`, moves the difference to the pot and
sets the table bet.  Illegal actions are rejected (`none`) leaving the
state unchanged. -/
def processPlayerAction (st : EGameState) (a : EAction) (amount : ℤ) :
    Option EGameState :=
  match st.players.get? st.activePlayerIndex with
  | none => none
  | some p =>
    match a with
    | .fold =>
      some { st with
               players := st.players.set st.activePlayerIndex
                 { p with isActive := false },
               activePlayerIndex := nextIndex st }
    | .check =>
      if p.currentBet = st.currentBet then
        some { st with activePlayerIndex := nextIndex st }
      else none
    | .call =>
      let owed := min (st.currentBet - p.currentBet) p.chips
      some { st with
               players := st.players.set st.activePlayerIndex
                 { p with chips := p.chips - owed,
                          currentBet := p.currentBet + owed },
               pot := st.pot + owed,
               activePlayerIndex := nextIndex st }
    | .raise =>
      if minRaise st.currentBet ≤ amount ∧ amount ≤ p.chips then
        let added := amount - p.currentBet
        some { st with
                 players := st.players.set st.activePlayerIndex
                   { p with chips := p.chips - added, currentBet := amount },
                 pot := st.pot + added,
                 currentBet := amount,
                 activePlayerIndex := nextIndex st }
      else none

/-- Apply a sequence of actions; fail as soon as one is illegal. -/
def applyActions (st : EGameState) : List (EAction × ℤ) → Option EGameState
  | [] => some st
  | (a, amt) :: rest =>
    match processPlayerAction st a amt with
    | some st' => applyActions st' rest
    | none => none

/-- A tiny concrete table used as witness input. -/
def egInit : EGameState :=
  { players := [⟨100, 0, true⟩, ⟨100, 0, true⟩],
    pot := 0, currentBet := 0, activePlayerIndex := 0 }

/-! ### Basic lemmas about the embedding's helpers -/

theorem mem_dedupFirst {α : Type} [DecidableEq α] {a : α} :
    ∀ {l : List α}, a ∈ dedupFirst l ↔ a ∈ l
  | [] => Iff.rfl
  | b :: bs => by
    simp only [dedupFirst, List.mem_cons, List.mem_filter, mem_dedupFirst (l := bs),
      decide_eq_true_eq]
    constructor
    · rintro (rfl | ⟨h, _⟩)
      · exact Or.inl rfl
      · exact Or.inr h
    · rintro (rfl | h)
      · exact Or.inl rfl
      · by_cases hab : a = b
        · exact Or.inl hab
        · exact Or.inr ⟨h, hab⟩

theorem countRank_sortCards (cs : List Card) (r : Rank) :
    countRank (sortCards cs) r = countRank cs r := by
  unfold countRank sortCards
  exact ((List.perm_insertionSort cardGe cs).map (·.rank)).count_eq r

theorem length_sortCards (cs : List Card) : (sortCards cs).length = cs.length :=
  (List.perm_insertionSort cardGe cs).length_eq

theorem mem_map_rank_sortCards {cs : List Card} {r : Rank} :
    r ∈ (sortCards cs).map (·.rank) ↔ r ∈ cs.map (·.rank) :=
  ((List.perm_insertionSort cardGe cs).map (·.rank)).mem_iff

/-- Every entry of the rank-count table records the true multiplicity of its
key. -/
theorem getRankCounts_snd {cs : List Card} {p : Rank × Nat}
    (hp : p ∈ getRankCounts cs) : p.2 = countRank cs p.1 := by
  obtain ⟨r, _, rfl⟩ := List.mem_map.mp hp
  rfl

/-- Every rank present in the hand has an entry in the rank-count table. -/
theorem getRankCounts_mem {cs : List Card} {r : Rank}
    (h : r ∈ cs.map (·.rank)) : (r, countRank cs r) ∈ getRankCounts cs :=
  List.mem_map.mpr ⟨r, mem_dedupFirst.mpr h, rfl⟩

theorem findRankWithCount_eq_some {cs : List Card} {n : Nat} {r : Rank}
    (h : findRankWithCount cs n = some r) : countRank cs r = n := by
  unfold findRankWithCount at h
  obtain ⟨p, hp, rfl⟩ := Option.map_eq_some'.mp h
  have h2 := List.find?_some hp
  have h3 := getRankCounts_snd (List.mem_of_find?_eq_some hp)
  simp only [beq_iff_eq] at h2
  omega

theorem findRankWithCount_isSome {cs : List Card} {n : Nat}
    (hn : 0 < n) (h : ∃ r, countRank cs r = n) :
    (findRankWithCount cs n).isSome := by
  obtain ⟨r, hr⟩ := h
  have hmem : r ∈ cs.map (·.rank) := by
    have hpos : 0 < (cs.map (·.rank)).count r := by
      unfold countRank at hr
      omega
    exact List.count_pos_iff.mp hpos
  have hentry : (r, countRank cs r) ∈ getRankCounts cs := getRankCounts_mem hmem
  have : ((getRankCounts cs).find? (fun p => p.2 == n)).isSome := by
    rw [List.find?_isSome]
    exact ⟨(r, countRank cs r), hentry, by simp [hr]⟩
  unfold findRankWithCount
  rw [Option.isSome_map']
  exact this

/-! ### Shape of each checker's output -/

theorem checkStraightFlush_shape {cs : List Card} {e : HandEvaluation}
    (h : checkStraightFlush cs = some e) :
    (e.handRank = 10 ∧ e.strength = 1) ∨ (e.handRank = 9 ∧ e.strength = 19/20) := by
  unfold checkStraightFlush at h
  split at h
  · cases cs with
    | nil => exact absurd h (by simp)
    | cons c cs' =>
      by_cases hroyal : getRankValue c.rank = 14 <;>
        simp only [hroyal, if_true, if_false, Option.some.injEq] at h
      · left
        rw [← h]
        exact ⟨rfl, rfl⟩
      · right
        rw [← h]
        exact ⟨rfl, rfl⟩
  · exact absurd h (by simp)

theorem checkFourOfAKind_shape {cs : List Card} {e : HandEvaluation}
    (h : checkFourOfAKind cs = some e) : e.handRank = 8 ∧ e.strength = 9/10 := by
  unfold checkFourOfAKind at h
  split at h
  · obtain rfl := (Option.some.injEq _ _).mp h
    exact ⟨rfl, rfl⟩
  · exact absurd h (by simp)

theorem checkFullHouse_shape {cs : List Card} {e : HandEvaluation}
    (h : checkFullHouse cs = some e) : e.handRank = 7 ∧ e.strength = 17/20 := by
  unfold checkFullHouse at h
  split at h
  · obtain rfl := (Option.some.injEq _ _).mp h
    exact ⟨rfl, rfl⟩
  · exact absurd h (by simp)

theorem checkFlush_shape {cs : List Card} {e : HandEvaluation}
    (h : checkFlush cs = some e) : e.handRank = 6 ∧ e.strength = 3/4 := by
  unfold checkFlush at h
  split at h
  · split at h
    · obtain rfl := (Option.some.injEq _ _).mp h
      exact ⟨rfl, rfl⟩
    · exact absurd h (by simp)
  · exact absurd h (by simp)

theorem checkStraight_shape {cs : List Card} {e : HandEvaluation}
    (h : checkStraight cs = some e) :
    e.handRank = 5 ∧
      (e.strength = 13/20 ∨ (e.strength = 3/5 ∧ e.kickers = [Rank.five])) := by
  unfold checkStraight at h
  dsimp only at h
  split at h
  · split at h <;>
      obtain rfl := (Option.some.injEq _ _).mp h
    · exact ⟨rfl, Or.inl rfl⟩
    · exact ⟨rfl, Or.inl rfl⟩
  · split at h
    · obtain rfl := (Option.some.injEq _ _).mp h
      exact ⟨rfl, Or.inr ⟨rfl, rfl⟩⟩
    · exact absurd h (by simp)

theorem checkThreeOfAKind_shape {cs : List Card} {e : HandEvaluation}
    (h : checkThreeOfAKind cs = some e) : e.handRank = 4 ∧ e.strength = 11/20 := by
  unfold checkThreeOfAKind at h
  split at h
  · obtain rfl := (Option.some.injEq _ _).mp h
    exact ⟨rfl, rfl⟩
  · exact absurd h (by simp)

theorem checkTwoPair_shape {cs : List Card} {e : HandEvaluation}
    (h : checkTwoPair cs = some e) :
    e.handRank = 3 ∧ e.strength = 9/20 ∧ e.kickers.length ≤ 1 ∧
      ∀ r ∈ e.kickers, countRank cs r = 1 := by
  unfold checkTwoPair at h
  dsimp only at h
  split at h
  · obtain rfl := (Option.some.injEq _ _).mp h
    refine ⟨rfl, rfl, ?_, ?_⟩ <;>
      cases hk : findRankWithCount cs 1 <;> simp only [hk]
    · simp
    · simp
    · simp
    · rename_i k
      intro r hr
      simp only [List.mem_singleton] at hr
      subst hr
      exact findRankWithCount_eq_some hk
  · exact absurd h (by simp)

theorem checkPair_shape {cs : List Card} {e : HandEvaluation}
    (h : checkPair cs = some e) :
    e.handRank = 2 ∧
      ∃ r, countRank cs r = 2 ∧ e.strength = 3/10 + (getRankValue r : ℚ)/100 := by
  unfold checkPair at h
  split at h
  · rename_i r hf
    obtain rfl := (Option.some.injEq _ _).mp h
    exact ⟨rfl, r, findRankWithCount_eq_some hf, rfl⟩
  · exact absurd h (by simp)

theorem checkHighCard_shape {cs : List Card} (hne : cs ≠ []) :
    (checkHighCard cs).handRank = 1 ∧
      ∃ r, r ∈ cs.map (·.rank) ∧
        (∀ r' ∈ cs.map (·.rank), getRankValue r' ≤ getRankValue r) ∧
        (checkHighCard cs).strength = 1/10 + (getRankValue r : ℚ)/200 := by
  have hperm : List.Perm (List.insertionSort rankGe (cs.map (·.rank))) (cs.map (·.rank)) :=
    List.perm_insertionSort _ _
  have hsorted : List.Sorted rankGe (List.insertionSort rankGe (cs.map (·.rank))) :=
    List.sorted_insertionSort _ _
  cases ht : List.insertionSort rankGe (cs.map (·.rank)) with
  | nil =>
    exfalso
    have hcs := hperm.length_eq
    rw [ht] at hcs
    simp only [List.length_nil, List.length_map] at hcs
    exact hne (List.length_eq_zero.mp hcs.symm)
  | cons r rest =>
    rw [ht] at hperm hsorted
    have hmem : r ∈ cs.map (·.rank) := hperm.mem_iff.mp (List.mem_cons_self r rest)
    have hmax : ∀ r' ∈ cs.map (·.rank), getRankValue r' ≤ getRankValue r := by
      intro r' hr'
      rcases List.mem_cons.mp (hperm.mem_iff.mpr hr') with rfl | hrest
      · exact le_refl _
      · exact (List.pairwise_cons.mp hsorted).1 r' hrest
    constructor
    · unfold checkHighCard
      rw [ht]
      simp
    · refine ⟨r, hmem, hmax, ?_⟩
      unfold checkHighCard
      rw [ht]
      simp

/-! ### Reduction of the checker cascade -/

theorem evaluateSorted_sf {s : List Card} {e : HandEvaluation}
    (h : checkStraightFlush s = some e) : evaluateSorted s = e := by
  unfold evaluateSorted
  rw [h]

theorem evaluateSorted_quads {s : List Card} {e : HandEvaluation}
    (h1 : checkStraightFlush s = none) (h : checkFourOfAKind s = some e) :
    evaluateSorted s = e := by
  unfold evaluateSorted
  rw [h1, h]

theorem evaluateSorted_fh {s : List Card} {e : HandEvaluation}
    (h1 : checkStraightFlush s = none) (h2 : checkFourOfAKind s = none)
    (h : checkFullHouse s = some e) : evaluateSorted s = e := by
  unfold evaluateSorted
  rw [h1, h2, h]

theorem evaluateSorted_flush {s : List Card} {e : HandEvaluation}
    (h1 : checkStraightFlush s = none) (h2 : checkFourOfAKind s = none)
    (h3 : checkFullHouse s = none) (h : checkFlush s = some e) :
    evaluateSorted s = e := by
  unfold evaluateSorted
  rw [h1, h2, h3, h]

theorem evaluateSorted_straight {s : List Card} {e : HandEvaluation}
    (h1 : checkStraightFlush s = none) (h2 : checkFourOfAKind s = none)
    (h3 : checkFullHouse s = none) (h4 : checkFlush s = none)
    (h : checkStraight s = some e) : evaluateSorted s = e := by
  unfold evaluateSorted
  rw [h1, h2, h3, h4, h]

theorem evaluateSorted_trips {s : List Card} {e : HandEvaluation}
    (h1 : checkStraightFlush s = none) (h2 : checkFourOfAKind s = none)
    (h3 : checkFullHouse s = none) (h4 : checkFlush s = none)
    (h5 : checkStraight s = none) (h : checkThreeOfAKind s = some e) :
    evaluateSorted s = e := by
  unfold evaluateSorted
  rw [h1, h2, h3, h4, h5, h]

theorem evaluateSorted_twoPair {s : List Card} {e : HandEvaluation}
    (h1 : checkStraightFlush s = none) (h2 : checkFourOfAKind s = none)
    (h3 : checkFullHouse s = none) (h4 : checkFlush s = none)
    (h5 : checkStraight s = none) (h6 : checkThreeOfAKind s = none)
    (h : checkTwoPair s = some e) : evaluateSorted s = e := by
  unfold evaluateSorted
  rw [h1, h2, h3, h4, h5, h6, h]

theorem evaluateSorted_pair {s : List Card} {e : HandEvaluation}
    (h1 : checkStraightFlush s = none) (h2 : checkFourOfAKind s = none)
    (h3 : checkFullHouse s = none) (h4 : checkFlush s = none)
    (h5 : checkStraight s = none) (h6 : checkThreeOfAKind s = none)
    (h7 : checkTwoPair s = none) (h : checkPair s = some e) :
    evaluateSorted s = e := by
  unfold evaluateSorted
  rw [h1, h2, h3, h4, h5, h6, h7, h]

theorem evaluateSorted_high {s : List Card}
    (h1 : checkStraightFlush s = none) (h2 : checkFourOfAKind s = none)
    (h3 : checkFullHouse s = none) (h4 : checkFlush s = none)
    (h5 : checkStraight s = none) (h6 : checkThreeOfAKind s = none)
    (h7 : checkTwoPair s = none) (h8 : checkPair s = none) :
    evaluateSorted s = checkHighCard s := by
  unfold evaluateSorted
  rw [h1, h2, h3, h4, h5, h6, h7, h8]

theorem evaluateHand_eq_sorted {cs : List Card} (hlen : 5 ≤ cs.length) :
    evaluateHand cs = evaluateSorted (sortCards cs) := by
  unfold evaluateHand
  rw [if_neg (by omega)]

/-- Exhaustive description of `evaluateHand` on a full hand: exactly one of
the ten category shapes holds, with the counts and bounds expressed over
the original (unsorted) card list. -/
theorem evaluateHand_master (cs : List Card) (hlen : 5 ≤ cs.length) :
    ((evaluateHand cs).handRank = 10 ∧ (evaluateHand cs).strength = 1) ∨
    ((evaluateHand cs).handRank = 9 ∧ (evaluateHand cs).strength = 19/20) ∨
    ((evaluateHand cs).handRank = 8 ∧ (evaluateHand cs).strength = 9/10) ∨
    ((evaluateHand cs).handRank = 7 ∧ (evaluateHand cs).strength = 17/20) ∨
    ((evaluateHand cs).handRank = 6 ∧ (evaluateHand cs).strength = 3/4) ∨
    ((evaluateHand cs).handRank = 5 ∧
      ((evaluateHand cs).strength = 13/20 ∨
        ((evaluateHand cs).strength = 3/5 ∧
          (evaluateHand cs).kickers = [Rank.five]))) ∨
    ((evaluateHand cs).handRank = 4 ∧ (evaluateHand cs).strength = 11/20) ∨
    ((evaluateHand cs).handRank = 3 ∧ (evaluateHand cs).strength = 9/20 ∧
      (evaluateHand cs).kickers.length ≤ 1 ∧
      ∀ r ∈ (evaluateHand cs).kickers, countRank cs r = 1) ∨
    ((evaluateHand cs).handRank = 2 ∧
      ∃ r, countRank cs r = 2 ∧
        (evaluateHand cs).strength = 3/10 + (getRankValue r : ℚ)/100) ∨
    ((evaluateHand cs).handRank = 1 ∧
      ∃ r, r ∈ cs.map (·.rank) ∧
        (∀ r' ∈ cs.map (·.rank), getRankValue r' ≤ getRankValue r) ∧
        (evaluateHand cs).strength = 1/10 + (getRankValue r : ℚ)/200) := by
  rw [evaluateHand_eq_sorted hlen]
  have hsne : sortCards cs ≠ [] := by
    intro h0
    have hl := length_sortCards cs
    rw [h0] at hl
    simp only [List.length_nil] at hl
    omega
  cases h1 : checkStraightFlush (sortCards cs) with
  | some e =>
    rw [evaluateSorted_sf h1]
    rcases checkStraightFlush_shape h1 with ⟨hr, hs⟩ | ⟨hr, hs⟩
    · exact Or.inl ⟨hr, hs⟩
    · exact Or.inr (Or.inl ⟨hr, hs⟩)
  | none =>
  cases h2 : checkFourOfAKind (sortCards cs) with
  | some e =>
    rw [evaluateSorted_quads h1 h2]
    exact Or.inr (Or.inr (Or.inl (checkFourOfAKind_shape h2)))
  | none =>
  cases h3 : checkFullHouse (sortCards cs) with
  | some e =>
    rw [evaluateSorted_fh h1 h2 h3]
    exact Or.inr (Or.inr (Or.inr (Or.inl (checkFullHouse_shape h3))))
  | none =>
  cases h4 : checkFlush (sortCards cs) with
  | some e =>
    rw [evaluateSorted_flush h1 h2 h3 h4]
    exact Or.inr (Or.inr (Or.inr (Or.inr (Or.inl (checkFlush_shape h4)))))
  | none =>
  cases h5 : checkStraight (sortCards cs) with
  | some e =>
    rw [evaluateSorted_straight h1 h2 h3 h4 h5]
    exact Or.inr (Or.inr (Or.inr (Or.inr (Or.inr (Or.inl
      (checkStraight_shape h5))))))
  | none =>
  cases h6 : checkThreeOfAKind (sortCards cs) with
  | some e =>
    rw [evaluateSorted_trips h1 h2 h3 h4 h5 h6]
    exact Or.inr (Or.inr (Or.inr (Or.inr (Or.inr (Or.inr (Or.inl
      (checkThreeOfAKind_shape h6)))))))
  | none =>
  cases h7 : checkTwoPair (sortCards cs) with
  | some e =>
    rw [evaluateSorted_twoPair h1 h2 h3 h4 h5 h6 h7]
    obtain ⟨hr, hs, hk, hcnt⟩ := checkTwoPair_shape h7
    refine Or.inr (Or.inr (Or.inr (Or.inr (Or.inr (Or.inr (Or.inr (Or.inl
      ⟨hr, hs, hk, ?_⟩)))))))
    intro r hrk
    rw [← countRank_sortCards cs r]
    exact hcnt r hrk
  | none =>
  cases h8 : checkPair (sortCards cs) with
  | some e =>
    rw [evaluateSorted_pair h1 h2 h3 h4 h5 h6 h7 h8]
    obtain ⟨hr, r, hcnt, hs⟩ := checkPair_shape h8
    refine Or.inr (Or.inr (Or.inr (Or.inr (Or.inr (Or.inr (Or.inr (Or.inr
      (Or.inl ⟨hr, r, ?_, hs⟩))))))))
    rw [← countRank_sortCards cs r]
    exact hcnt
  | none =>
    rw [evaluateSorted_high h1 h2 h3 h4 h5 h6 h7 h8]
    obtain ⟨hr, r, hmem, hmax, hs⟩ := checkHighCard_shape hsne
    refine Or.inr (Or.inr (Or.inr (Or.inr (Or.inr (Or.inr (Or.inr (Or.inr
      (Or.inr ⟨hr, r, ?_, ?_, hs⟩))))))))
    · exact mem_map_rank_sortCards.mp hmem
    · intro r' hr'
      exact hmax r' (mem_map_rank_sortCards.mpr hr')

/-! ### Chip conservation for the betting-engine model -/

theorem sum_chips_set {l : List EPlayer} {i : Nat} {p q : EPlayer}
    (h : l.get? i = some p) :
    ((l.set i q).map (·.chips)).sum = (l.map (·.chips)).sum - p.chips + q.chips := by
  induction l generalizing i with
  | nil => simp at h
  | cons a as ih =>
    cases i with
    | zero =>
      simp only [List.get?] at h
      obtain rfl := (Option.some.injEq _ _).mp h
      simp only [List.set, List.map_cons, List.sum_cons]
      ring
    | succ n =>
      simp only [List.get?] at h
      simp only [List.set, List.map_cons, List.sum_cons, ih h]
      ring

theorem processPlayerAction_chipSum {st st' : EGameState} {a : EAction}
    {amt : ℤ} (h : processPlayerAction st a amt = some st') :
    chipSum st' = chipSum st := by
  unfold processPlayerAction at h
  split at h
  · exact absurd h (by simp)
  · rename_i p hg
    cases a <;> dsimp only at h
    case fold =>
      obtain rfl := (Option.some.injEq _ _).mp h
      dsimp only [chipSum]
      rw [sum_chips_set hg]
      ring
    case check =>
      split at h
      · obtain rfl := (Option.some.injEq _ _).mp h
        rfl
      · exact absurd h (by simp)
    case call =>
      obtain rfl := (Option.some.injEq _ _).mp h
      dsimp only [chipSum]
      rw [sum_chips_set hg]
      ring
    case raise =>
      split at h
      · obtain rfl := (Option.some.injEq _ _).mp h
        dsimp only [chipSum]
        rw [sum_chips_set hg]
        ring
      · exact absurd h (by simp)

/-! ### Claim theorems -/

/-- C1 counterexample: on `{Ac,2c,3c,4c,5c}` the evaluator does NOT return a
Straight with strength 0.60 — it returns handRank 10 ("Royal Flush") with
strength 1.0, because the flush check and the wheel straight check both
succeed on the whole hand and the hand's top card is an Ace. -/
theorem c1_wheel_counterexample :
    (evaluateHand wheelClubs).handRank = 10 ∧
      (evaluateHand wheelClubs).strength = 1 ∧
      ¬((evaluateHand wheelClubs).handRank = 5 ∧
        (evaluateHand wheelClubs).strength = 3/5) := by
  refine ⟨rfl, rfl, ?_⟩
  rintro ⟨h, -⟩
  exact absurd h (by decide)

/-- C1 (amended): for the input `{Ac,2c,3c,4c,5c}`, `evaluateHand` returns a
Royal Flush (handRank 10) with strength exactly 1.0, not a Straight. -/
theorem c1_wheel_amended :
    (evaluateHand wheelClubs).handType = "Royal Flush" ∧
      (evaluateHand wheelClubs).handRank = 10 ∧
      (evaluateHand wheelClubs).strength = 1 :=
  ⟨rfl, rfl, rfl⟩

/-- C2: the code returns Straight Flush (handRank 9, strength 0.95) on
`{2h,3c,4c,5c,6c,Qd,Kc}` although no single suit of that hand holds 5
consecutive ranks — the claim (and the spec) require the straight to lie
within the flush suit, so the code is wrong here. -/
theorem c2_phantom_straight_flush :
    specStraightFlush mixedFlushStraightHand = false ∧
      (evaluateHand mixedFlushStraightHand).handType = "Straight Flush" ∧
      (evaluateHand mixedFlushStraightHand).handRank = 9 ∧
      (evaluateHand mixedFlushStraightHand).strength = 19/20 :=
  ⟨rfl, rfl, rfl, rfl⟩

/-- C3 counterexample: on the empty input `evaluateHand` does not fail with
an InsufficientCards error — it returns the fabricated placeholder
evaluation. -/
theorem c3_counterexample :
    evaluateHand [] =
      { handType := "High Card", handRank := 1, kickers := [],
        description := "Incomplete hand", strength := 1/10 } := rfl

/-- C3 (amended): for every input of fewer than 5 cards, `evaluateHand`
returns the placeholder High Card evaluation instead of failing. -/
theorem c3_amended (cs : List Card) (h : cs.length < 5) :
    evaluateHand cs =
      { handType := "High Card", handRank := 1, kickers := [],
        description := "Incomplete hand", strength := 1/10 } := by
  unfold evaluateHand
  rw [if_pos h]

/-- C3 witness: a concrete 1-card input. -/
theorem c3_witness :
    ([⟨Rank.ace, Suit.clubs⟩] : List Card).length < 5 ∧
      evaluateHand [⟨Rank.ace, Suit.clubs⟩] =
        { handType := "High Card", handRank := 1, kickers := [],
          description := "Incomplete hand", strength := 1/10 } :=
  ⟨by decide, c3_amended [⟨Rank.ace, Suit.clubs⟩] (by decide)⟩

/-- C4: for every input of fewer than 5 cards (the empty list included),
`evaluateHand` returns handRank 1, strength 0.1, no kickers and the
description "Incomplete hand". -/
theorem c4_placeholder (cs : List Card) (h : cs.length < 5) :
    (evaluateHand cs).handRank = 1 ∧ (evaluateHand cs).strength = 1/10 ∧
      (evaluateHand cs).kickers = [] ∧
      (evaluateHand cs).description = "Incomplete hand" := by
  unfold evaluateHand
  rw [if_pos h]
  exact ⟨rfl, rfl, rfl, rfl⟩

/-- C4 witness: the empty input. -/
theorem c4_witness :
    ([] : List Card).length < 5 ∧
      ((evaluateHand ([] : List Card)).handRank = 1 ∧
        (evaluateHand ([] : List Card)).strength = 1/10 ∧
        (evaluateHand ([] : List Card)).kickers = [] ∧
        (evaluateHand ([] : List Card)).description = "Incomplete hand") :=
  ⟨by decide, c4_placeholder [] (by decide)⟩

/-- C5 counterexample: `{2c,2d,2h,5s,5c,5d,Kd}` satisfies the claim's
premises — no straight flush, no four of a kind, rank 2 occurs exactly 3
times, rank 5 occurs at least 2 times — yet the evaluator returns Three of
a Kind (handRank 4), not Full House: `checkFullHouse` demands a rank
counted exactly 2, and here 5 is counted 3 times. -/
theorem c5_counterexample :
    countRank twoTripsHand Rank.two = 3 ∧
      2 ≤ countRank twoTripsHand Rank.five ∧
      checkStraightFlush (sortCards twoTripsHand) = none ∧
      checkFourOfAKind (sortCards twoTripsHand) = none ∧
      (evaluateHand twoTripsHand).handType = "Three of a Kind" ∧
      (evaluateHand twoTripsHand).handRank = 4 :=
  ⟨rfl, by decide, rfl, rfl, rfl, rfl⟩

/-- C5 (amended): for a hand of at least 5 cards on which the straight-flush
and four-of-a-kind checks fail, if some rank occurs exactly 3 times and
some rank occurs exactly 2 times, `evaluateHand` returns Full House with
handRank 7 and strength 0.85. -/
theorem c5_amended (cs : List Card) (hlen : 5 ≤ cs.length)
    (h1 : checkStraightFlush (sortCards cs) = none)
    (h2 : checkFourOfAKind (sortCards cs) = none)
    (h3 : ∃ r, countRank cs r = 3) (h4 : ∃ r, countRank cs r = 2) :
    (evaluateHand cs).handType = "Full House" ∧
      (evaluateHand cs).handRank = 7 ∧
      (evaluateHand cs).strength = 17/20 := by
  rw [evaluateHand_eq_sorted hlen]
  have h3' : ∃ r, countRank (sortCards cs) r = 3 := by
    obtain ⟨r, hr⟩ := h3
    exact ⟨r, by rw [countRank_sortCards, hr]⟩
  have h4' : ∃ r, countRank (sortCards cs) r = 2 := by
    obtain ⟨r, hr⟩ := h4
    exact ⟨r, by rw [countRank_sortCards, hr]⟩
  have hf3 : (findRankWithCount (sortCards cs) 3).isSome :=
    findRankWithCount_isSome (by omega) h3'
  have hf2 : (findRankWithCount (sortCards cs) 2).isSome :=
    findRankWithCount_isSome (by omega) h4'
  obtain ⟨t, ht⟩ := Option.isSome_iff_exists.mp hf3
  obtain ⟨p, hp⟩ := Option.isSome_iff_exists.mp hf2
  have hfh : checkFullHouse (sortCards cs) =
      some { handType := "Full House", handRank := 7, kickers := [t, p],
             description :=
               "Full House, " ++ rankStr t ++ "s over " ++ rankStr p ++ "s",
             strength := 17/20 } := by
    unfold checkFullHouse
    rw [ht, hp]
  rw [evaluateSorted_fh h1 h2 hfh]
  exact ⟨rfl, rfl, rfl⟩

/-- C5 witness: the spec's concrete full-house example
`{2c,2d,2h,5s,5c,9h,Kd}`. -/
theorem c5_witness :
    (evaluateHand fullHouseHand).handType = "Full House" ∧
      (evaluateHand fullHouseHand).handRank = 7 ∧
      (evaluateHand fullHouseHand).strength = 17/20 :=
  c5_amended fullHouseHand (by decide) rfl rfl ⟨Rank.two, rfl⟩ ⟨Rank.five, rfl⟩

/-- C6: on every hand of at least 5 cards, the returned strength is the
fixed constant of the returned category — Royal 1.0, Straight Flush 0.95,
Quads 0.9, Full House 0.85, Flush 0.75, Straight 0.65 (wheel 0.60) — and
the rank-scaled formulas `0.3 + rank/100` for Pair and `0.1 + rank/200`
for High Card. -/
theorem c6_strength_table (cs : List Card) (hlen : 5 ≤ cs.length) :
    StrengthMatchesCategory cs := by
  rcases evaluateHand_master cs hlen with
    ⟨hr, hs⟩ | ⟨hr, hs⟩ | ⟨hr, hs⟩ | ⟨hr, hs⟩ | ⟨hr, hs⟩ | ⟨hr, hs⟩ |
    ⟨hr, hs⟩ | ⟨hr, hs, -, -⟩ | ⟨hr, hs⟩ | ⟨hr, hs⟩ <;>
  refine ⟨?_, ?_, ?_, ?_, ?_, ?_, ?_, ?_, ?_⟩ <;> intro h <;> rw [hr] at h <;>
    first
      | exact absurd h (by decide)
      | exact hs

/-- C6 witness: a concrete royal-flush hand. -/
theorem c6_witness :
    5 ≤ royalHearts.length ∧ StrengthMatchesCategory royalHearts :=
  ⟨by decide, c6_strength_table royalHearts (by decide)⟩

/-- C7 counterexample: with currentBet = 100 (≥ 0), playerChips = 50 and
slider 0, the submitted amount is 50, strictly below the claimed lower
bound `max(currentBet*2, currentBet+50) = 200`. -/
theorem c7_counterexample :
    handleRaiseAmount 0 100 50 = 50 ∧
      handleRaiseAmount 0 100 50 < minRaise 100 ∧ (0 : ℤ) ≤ 100 := by
  refine ⟨?_, ?_, ?_⟩ <;> decide

/-- C7 (amended): for every slider value and every chip stack, the submitted
raise never exceeds the player's chips; whenever the chips cover the
minimum raise `max(currentBet*2, currentBet+50)`, the submitted amount
also reaches that minimum; and when the chips fall below that minimum the
handler submits the whole stack `playerChips` itself. -/
theorem c7_amended (slider currentBet chips : ℤ) (_hcb : 0 ≤ currentBet) :
    handleRaiseAmount slider currentBet chips ≤ chips ∧
      (minRaise currentBet ≤ chips →
        minRaise currentBet ≤ handleRaiseAmount slider currentBet chips) ∧
      (chips < minRaise currentBet →
        handleRaiseAmount slider currentBet chips = chips) := by
  unfold handleRaiseAmount
  refine ⟨min_le_right _ _, ?_, ?_⟩
  · intro hchips
    exact le_min (le_max_right _ _) hchips
  · intro hlow
    exact min_eq_right (le_of_lt (lt_of_lt_of_le hlow (le_max_right _ _)))

/-- C7 witness: currentBet 100 with a covering stack of 1000 chips, and
currentBet 100 with a short stack of 50 chips. -/
theorem c7_witness :
    handleRaiseAmount 0 100 1000 ≤ 1000 ∧
      minRaise 100 ≤ handleRaiseAmount 0 100 1000 ∧
      handleRaiseAmount 0 100 50 = 50 :=
  ⟨(c7_amended 0 100 1000 (by decide)).1,
   (c7_amended 0 100 1000 (by decide)).2.1 (by decide),
   (c7_amended 0 100 50 (by decide)).2.2 (by decide)⟩

/-- C8: over any sequence of legal actions processed by the (spec-modelled)
betting engine, the total of all player stacks plus the pot never changes. -/
theorem c8_chip_conservation (acts : List (EAction × ℤ)) :
    ∀ st st' : EGameState, applyActions st acts = some st' →
      chipSum st' = chipSum st := by
  induction acts with
  | nil =>
    intro st st' h
    obtain rfl := (Option.some.injEq _ _).mp h
    rfl
  | cons hd tl ih =>
    intro st st' h
    obtain ⟨a, amt⟩ := hd
    unfold applyActions at h
    cases hp : processPlayerAction st a amt <;> rw [hp] at h
    · exact absurd h (by simp)
    · rename_i st1
      rw [ih st1 st' h, processPlayerAction_chipSum hp]

/-- C8 witness: two players check and fold; the 200 chips in play are
conserved. -/
theorem c8_witness :
    chipSum { players := [⟨100, 0, true⟩, ⟨100, 0, false⟩], pot := 0,
              currentBet := 0, activePlayerIndex := 0 } = chipSum egInit :=
  c8_chip_conservation [(EAction.check, 0), (EAction.fold, 0)] egInit _ rfl

/-- C9: the evaluator is deterministic — identical inputs produce the same
evaluation record (hence the same category, handRank, kickers, description
and strength). -/
theorem c9_deterministic (cs ds : List Card) (h : cs = ds) :
    evaluateHand cs = evaluateHand ds := by rw [h]

/-- C9 witness: the suited wheel evaluated twice. -/
theorem c9_witness : evaluateHand wheelClubs = evaluateHand wheelClubs :=
  c9_deterministic wheelClubs wheelClubs rfl

/-- C10: a Two Pair result (handRank 3) on a full hand always carries
strength exactly 0.45, at most one kicker, and any kicker is a rank that
occurs exactly once in the hand — so the paired ranks are never among the
kickers. -/
theorem c10_two_pair (cs : List Card) (hlen : 5 ≤ cs.length)
    (h3 : (evaluateHand cs).handRank = 3) :
    (evaluateHand cs).strength = 9/20 ∧
      (evaluateHand cs).kickers.length ≤ 1 ∧
      ∀ r ∈ (evaluateHand cs).kickers, countRank cs r = 1 := by
  rcases evaluateHand_master cs hlen with
    ⟨hr, -⟩ | ⟨hr, -⟩ | ⟨hr, -⟩ | ⟨hr, -⟩ | ⟨hr, -⟩ | ⟨hr, -⟩ |
    ⟨hr, -⟩ | ⟨hr, hs, hk, hc⟩ | ⟨hr, -⟩ | ⟨hr, -⟩ <;> rw [hr] at h3 <;>
    first
      | exact absurd h3 (by decide)
      | exact ⟨hs, hk, hc⟩

/-- C10 witness: the concrete two-pair hand `{Kc,Kd,5h,5s,9c}`. -/
theorem c10_witness :
    (evaluateHand twoPairHand).strength = 9/20 ∧
      (evaluateHand twoPairHand).kickers.length ≤ 1 ∧
      ∀ r ∈ (evaluateHand twoPairHand).kickers, countRank twoPairHand r = 1 :=
  c10_two_pair twoPairHand (by decide) rfl

end PBot
